import Mathlib

/-!
Shallow embedding of the oxrq pipeline (src/main.rs): input assembly over
RDF sources, query/update dispatch, result routing and output serialization.
The delegated oxigraph collaborators (RDF parser streams, SPARQL parser and
engine, file system) are modelled as oracle function records; the control
flow of `collect_input`, `load_data`, `query_to_new_store_or_serialize` and
`main` is translated faithfully from the source.
-/

set_option autoImplicit false

namespace Oxrq

/-- An RDF triple; terms are kept opaque as strings. -/
structure Triple where
  s : String
  p : String
  o : String
deriving DecidableEq, Repr

/-- An RDF quad: a triple with a graph label (`none` is the default graph). -/
structure Quad where
  s : String
  p : String
  o : String
  g : Option String
deriving DecidableEq, Repr

def Quad.toTriple (q : Quad) : Triple := ⟨q.s, q.p, q.o⟩

/-- Model of the oxigraph `Store`: a default graph plus named graphs in
enumeration order.  A named graph may be empty (SPARQL updates such as
`CREATE GRAPH` or `CLEAR GRAPH` produce empty named graphs). -/
structure Store where
  defaultGraph : List Triple
  namedGraphs : List (String × List Triple)
deriving DecidableEq, Repr

def emptyStore : Store := ⟨[], []⟩

def addToGraphs (gs : List (String × List Triple)) (g : String) (t : Triple) :
    List (String × List Triple) :=
  match gs with
  | [] => [(g, [t])]
  | (g0, ts) :: rest =>
    if g0 = g then (g0, if t ∈ ts then ts else ts ++ [t]) :: rest
    else (g0, ts) :: addToGraphs rest g t

/-- `Store::insert`: set-semantics insertion of one quad. -/
def Store.insertQuad (st : Store) (q : Quad) : Store :=
  match q.g with
  | none =>
    { st with defaultGraph :=
        if q.toTriple ∈ st.defaultGraph then st.defaultGraph
        else st.defaultGraph ++ [q.toTriple] }
  | some g => { st with namedGraphs := addToGraphs st.namedGraphs g q.toTriple }

/-- `BulkLoader::load_quads`: insert a batch of quads. -/
def Store.loadQuads (st : Store) (qs : List Quad) : Store :=
  qs.foldl Store.insertQuad st

/-- `oxigraph::io::RdfFormat`. -/
inductive RdfFormatT where
  | n3 | nquads | ntriples | rdfXml | trig | turtle
deriving DecidableEq, Repr

/-- `RdfFormat::from_extension`. -/
def RdfFormatT.fromExtension (e : String) : Option RdfFormatT :=
  if e = "n3" then some .n3
  else if e = "nq" then some .nquads
  else if e = "nt" then some .ntriples
  else if e = "rdf" then some .rdfXml
  else if e = "trig" then some .trig
  else if e = "ttl" then some .turtle
  else none

/-- `RdfFormat::supports_datasets`: only N-Quads and TriG carry named graphs. -/
def RdfFormatT.supportsDatasets : RdfFormatT → Bool
  | .nquads => true
  | .trig => true
  | _ => false

/-- `oxigraph::sparql::results::QueryResultsFormat`. -/
inductive QueryResultsFormatT where
  | xml | json | csv | tsv
deriving DecidableEq, Repr

/-- `QueryResultsFormat::from_extension`. -/
def QueryResultsFormatT.fromExtension (e : String) : Option QueryResultsFormatT :=
  if e = "srx" then some .xml
  else if e = "xml" then some .xml
  else if e = "srj" then some .json
  else if e = "json" then some .json
  else if e = "csv" then some .csv
  else if e = "tsv" then some .tsv
  else none

/-- Split a character list on a separator (model of path/extension splitting). -/
def splitChar (sep : Char) : List Char → List (List Char)
  | [] => [[]]
  | c :: rest =>
    match splitChar sep rest with
    | [] => [[c]]
    | g :: gs => if c = sep then [] :: g :: gs else (c :: g) :: gs

/-- Model of Rust `Path::extension` (composed with `to_str`): the portion of
the file name after the final dot; `none` when the file name has no dot or
starts with its only dot. -/
def extension (fpath : String) : Option String :=
  let name := (splitChar '/' fpath.data).getLastD []
  match splitChar '.' name with
  | [] => none
  | [_] => none
  | [[], _] => none
  | parts => some (String.mk (parts.getLastD []))

/-- Percent-encode spaces, model of `.replace(" ", "%20")` in `main.rs`. -/
def pctEncodeSpaces (str : String) : String :=
  String.mk (str.data.foldr
    (fun ch acc => if ch = ' ' then '%' :: '2' :: '0' :: acc else ch :: acc) [])

def startsWithSlash (str : String) : Bool :=
  match str.data with
  | c :: _ => c = '/'
  | [] => false

/-- The named-graph / fallback base IRI derived from a file path
(`collect_input`, the `graph_iri` computation). -/
def graphIri (fpath : String) : String :=
  pctEncodeSpaces (if startsWithSlash fpath then "file://" ++ fpath else "file:" ++ fpath)

/-- What one parsed source reports back: the quad stream (items may be
read/parse errors), the discovered base IRI and the discovered prefix
bindings.  Produced by the delegated oxigraph parser. -/
structure SourceReport where
  items : List (Except String Quad)
  baseIri : Option String
  prefixes : List (String × String)
deriving Repr

/-- Which source a parser invocation was given. -/
inductive SourceId where
  | stdin
  | file (path : String)
deriving DecidableEq, Repr

/-- One invocation of the delegated RDF parser, with the base IRI it was
configured with. -/
structure ParserCall where
  source : SourceId
  base : Option String
deriving DecidableEq, Repr

def ParserCall.isStdin (c : ParserCall) : Bool :=
  match c.source with
  | .stdin => true
  | .file _ => false

/-- External-world oracle used by the input phase: file system and parser. -/
structure InputWorld where
  openFile : String → Except String Unit
  fileReport : String → String → SourceReport
  stdinReport : Option String → SourceReport
  readQueryFile : String → Except String String

/-- Command-line arguments (struct `CliArgs` in `main.rs`). -/
structure CliArgs where
  inputFormat : Option String
  outputFormat : Option String
  baseIri : Option String
  fileQuery : Bool
  noStdin : Bool
  query : Option String
  file : List String
deriving DecidableEq, Repr

/-- Rust `collect::<Result<Vec<_>, _>>()`: all quads, or the first error. -/
def collectQuads : List (Except String Quad) → Except String (List Quad)
  | [] => .ok []
  | .error e :: _ => .error e
  | .ok q :: rest =>
    match collectQuads rest with
    | .error e => .error e
    | .ok qs => .ok (q :: qs)

/-- The first error in a quad stream, if any. -/
def firstErr : List (Except String Quad) → Option String
  | [] => none
  | .error e :: _ => some e
  | .ok _ :: rest => firstErr rest

/-- Insert a prefix binding unless the label is already bound
(`if !prefixes.contains_key(pfx) { prefixes.insert(..) }`). -/
def insertPfx (m : List (String × String)) (kv : String × String) :
    List (String × String) :=
  if m.any (fun e => e.1 = kv.1) then m else m ++ [kv]

/-- Merge a source's reported bindings into the accumulated table, first wins. -/
def mergePfxs (acc new : List (String × String)) : List (String × String) :=
  new.foldl insertPfx acc

/-- First-match lookup in the accumulated prefix table. -/
def lookupPfx (m : List (String × String)) (pfx : String) : Option String :=
  match m with
  | [] => none
  | (k, v) :: rest => if k = pfx then some v else lookupPfx rest pfx

/-- `load_data`: collect the whole quad stream (failing on the first stream
error), bulk-load it, then merge the discovered base IRI (get-or-insert) and
prefixes (first wins) into the accumulated state. -/
def loadData (store : Store) (report : SourceReport) (base : Option String)
    (pfxs : List (String × String)) :
    Except String (Store × Option String × List (String × String)) :=
  match collectQuads report.items with
  | .error e => .error e
  | .ok quads =>
    let store := store.loadQuads quads
    let base := match base with
      | some b => some b
      | none => report.baseIri
    let pfxs := mergePfxs pfxs report.prefixes
    .ok (store, base, pfxs)

/-- Mutable state of the `collect_input` loop. -/
structure LoopState where
  store : Store
  baseIri : Option String
  prefixes : List (String × String)
  queryFile : Option String
  useStdin : Bool
  calls : List ParserCall
  diagnostics : List String
deriving Repr

/-- One iteration of the file loop in `collect_input`: the `-` sentinel turns
stdin on, a missing extension or unknown format or failed open is fatal, an
`.rq` file becomes the query file, and a load failure is reported and
skipped. -/
def processFile (iw : InputWorld) (st : LoopState) (fpath : String) :
    Except String LoopState :=
  if fpath = "-" then .ok { st with useStdin := true }
  else
    match extension fpath with
    | none => .error "Needs file extensions to detect input format"
    | some ext =>
      if ext = "rq" then .ok { st with queryFile := some fpath }
      else
        match RdfFormatT.fromExtension ext with
        | none => .error ("No RDF format found for extension " ++ ext)
        | some _fmt =>
          match iw.openFile fpath with
          | .error e => .error ("Unable to open file: " ++ fpath ++ ": " ++ e)
          | .ok _ =>
            match loadData st.store
                (iw.fileReport fpath (st.baseIri.getD (graphIri fpath)))
                st.baseIri st.prefixes with
            | .error e =>
              .ok { st with
                calls := st.calls ++
                  [ParserCall.mk (SourceId.file fpath)
                    (some (st.baseIri.getD (graphIri fpath)))]
                diagnostics :=
                  st.diagnostics ++ ["Error in file " ++ fpath ++ ": " ++ e] }
            | .ok (store, base, pfxs) =>
              .ok { st with
                store := store
                baseIri := base
                prefixes := pfxs
                calls := st.calls ++
                  [ParserCall.mk (SourceId.file fpath)
                    (some (st.baseIri.getD (graphIri fpath)))] }

/-- The file loop of `collect_input`. -/
def collectFiles (iw : InputWorld) (files : List String) (st : LoopState) :
    Except String LoopState :=
  match files with
  | [] => .ok st
  | f :: rest =>
    match processFile iw st f with
    | .error e => .error e
    | .ok st => collectFiles iw rest st

/-- Resolution of the stdin input format (`--input-format`, default Turtle). -/
def stdinFormat (args : CliArgs) : Except String RdfFormatT :=
  match args.inputFormat with
  | some f =>
    match RdfFormatT.fromExtension f with
    | none => .error ("Unknown input format: " ++ f)
    | some fmt => .ok fmt
  | none => .ok .turtle

/-- The file list after the `--file-query` reinterpretation pushes the query
positional onto the file list. -/
def filesAfterFileQuery (args : CliArgs) : List String :=
  if args.fileQuery then
    match args.query with
    | some p => args.file ++ [p]
    | none => args.file
  else args.file

/-- The inline query body after the `--file-query` reinterpretation clears it. -/
def inlineQueryOf (args : CliArgs) : Option String :=
  if args.fileQuery then none else args.query

/-- Initial loop state: CLI base IRI, and
`use_stdin = !no_stdin && file.len() == 0` (computed after the file-query
push). -/
def initState (args : CliArgs) (files : List String) : LoopState :=
  { store := emptyStore
    baseIri := args.baseIri
    prefixes := []
    queryFile := none
    useStdin := !args.noStdin && files.isEmpty
    calls := []
    diagnostics := [] }

/-- `PREFIX` lines prepended to an inline query body. -/
def prefixLines (pfxs : List (String × String)) : String :=
  pfxs.foldl (fun acc kv => acc ++ "PREFIX " ++ kv.1 ++ ": <" ++ kv.2 ++ ">\n") ""

/-- Everything `collect_input` hands back to `main`. -/
structure CollectOut where
  store : Store
  baseIri : Option String
  prefixes : List (String × String)
  queryStr : String
  calls : List ParserCall
  diagnostics : List String
deriving Repr

def mkOut (st : LoopState) (qs : String) : CollectOut :=
  { store := st.store
    baseIri := st.baseIri
    prefixes := st.prefixes
    queryStr := qs
    calls := st.calls
    diagnostics := st.diagnostics }

/-- The stdin stage of `collect_input`: when stdin participates, resolve the
input format (fatal if unknown), parse stdin with the accumulated base IRI,
and load it — any load failure is fatal here (the `?` at the stdin
`load_data` call). -/
def stdinStep (iw : InputWorld) (args : CliArgs) (st : LoopState) :
    Except String LoopState :=
  if st.useStdin then
    match stdinFormat args with
    | .error e => .error e
    | .ok _fmt =>
      match loadData st.store (iw.stdinReport st.baseIri) st.baseIri st.prefixes with
      | .error e => .error e
      | .ok (store, base, pfxs) =>
        .ok { st with
          store := store
          baseIri := base
          prefixes := pfxs
          calls := st.calls ++ [ParserCall.mk SourceId.stdin st.baseIri] }
  else .ok st

/-- The query-text stage of `collect_input`: query file verbatim; inline body
with accumulated prefixes prepended; otherwise the empty string. -/
def queryStep (iw : InputWorld) (args : CliArgs) (st : LoopState) :
    Except String CollectOut :=
  match st.queryFile with
  | some fp =>
    match iw.readQueryFile fp with
    | .error e => .error ("Unable to open query file: " ++ fp ++ ": " ++ e)
    | .ok content => .ok (mkOut st content)
  | none =>
    match inlineQueryOf args with
    | some body => .ok (mkOut st (prefixLines st.prefixes ++ body))
    | none => .ok (mkOut st "")

/-- `collect_input`: drive the file loop, then stdin, then assemble the query
text. -/
def collectInput (iw : InputWorld) (args : CliArgs) : Except String CollectOut :=
  match collectFiles iw (filesAfterFileQuery args)
      (initState args (filesAfterFileQuery args)) with
  | .error e => .error e
  | .ok st =>
    match stdinStep iw args st with
    | .error e => .error e
    | .ok st => queryStep iw args st

/-- A parsed SPARQL query handle; `unionDefaultGraph` mirrors the
`dataset_mut().set_default_graph_as_union()` switch. -/
structure QueryAst where
  tag : String
  unionDefaultGraph : Bool
deriving DecidableEq, Repr

/-- A parsed SPARQL update handle (opaque). -/
structure UpdateAst where
  tag : String
deriving DecidableEq, Repr

/-- Tagged result returned by the delegated query engine; solution rows and
constructed triples may fail lazily. -/
inductive QueryResultsT where
  | solutions (vars : List String) (rows : List (Except String (List (String × String))))
  | boolean (b : Bool)
  | graph (items : List (Except String Triple))

/-- The SPARQL engine and parser oracle. -/
structure EngineWorld where
  parseQuery : String → Option String → Except String QueryAst
  parseUpdate : String → Option String → Except String UpdateAst
  runQuery : Store → QueryAst → Except String QueryResultsT
  runUpdate : Store → UpdateAst → Except String Store

/-- `set_default_graph_as_union` on a parsed query. -/
def setUnionDefaultGraph (q : QueryAst) : QueryAst :=
  { q with unionDefaultGraph := true }

/-- Collect lazily produced items, failing on the first error. -/
def collectItems : List (Except String Triple) → Except String (List Triple)
  | [] => .ok []
  | .error e :: _ => .error e
  | .ok t :: rest =>
    match collectItems rest with
    | .error e => .error e
    | .ok ts => .ok (t :: ts)

/-- Collect solution rows, failing on the first error. -/
def collectRows : List (Except String (List (String × String))) →
    Except String (List (List (String × String)))
  | [] => .ok []
  | .error e :: _ => .error e
  | .ok r :: rest =>
    match collectRows rest with
    | .error e => .error e
    | .ok rs => .ok (r :: rs)

/-- Payload of a dataset dump: either the full dataset (dataset-capable
formats, with prefix hints) or a single selected graph. -/
inductive DumpPayload where
  | fullDataset (fmt : RdfFormatT) (pfxs : List (String × String)) (st : Store)
  | singleGraph (fmt : RdfFormatT) (ts : List Triple)
deriving DecidableEq, Repr

/-- What flows to standard output. -/
inductive Output where
  | solutionsOut (fmt : QueryResultsFormatT) (vars : List String)
      (rows : List (List (String × String)))
  | booleanOut (fmt : QueryResultsFormatT) (b : Bool)
  | datasetOut (payload : DumpPayload)
deriving DecidableEq, Repr

def Output.isDatasetOut : Output → Bool
  | .datasetOut _ => true
  | _ => false

/-- Result of `query_to_new_store_or_serialize`: either the solutions/boolean
were serialized (Rust returns `None`), or a fresh store of constructed
triples replaces the dataset (Rust returns `Some(store)`). -/
inductive RouteOut where
  | serialized (o : Output)
  | newStore (st : Store)

/-- `get_queryresults_format`. -/
def getQueryResultsFormat : Option String → Except String QueryResultsFormatT
  | some f =>
    match QueryResultsFormatT.fromExtension f with
    | none => .error ("Unknown query results format: " ++ f)
    | some fmt => .ok fmt
  | none => .ok .tsv

/-- The fresh store built from CONSTRUCT/DESCRIBE triples: each triple is
inserted as a quad tagged with the default graph label. -/
def buildConstructStore (ts : List Triple) : Store :=
  ts.foldl (fun st t => st.insertQuad ⟨t.s, t.p, t.o, none⟩) emptyStore

/-- `query_to_new_store_or_serialize`: switch the query to
union-default-graph, run it, and route the tagged result. -/
def queryToNewStoreOrSerialize
    (runQuery : Store → QueryAst → Except String QueryResultsT)
    (store : Store) (q : QueryAst) (outputFormat : Option String) :
    Except String RouteOut :=
  match runQuery store (setUnionDefaultGraph q) with
  | .error e => .error ("Query failed: " ++ e)
  | .ok (.solutions vars rows) =>
    match getQueryResultsFormat outputFormat with
    | .error e => .error e
    | .ok fmt =>
      match collectRows rows with
      | .error e => .error e
      | .ok rs => .ok (.serialized (.solutionsOut fmt vars rs))
  | .ok (.boolean b) =>
    match getQueryResultsFormat outputFormat with
    | .error e => .error e
    | .ok fmt => .ok (.serialized (.booleanOut fmt b))
  | .ok (.graph items) =>
    match collectItems items with
    | .error e => .error e
    | .ok ts => .ok (.newStore (buildConstructStore ts))

/-- Graph selection for dataset-incapable output formats: the default graph
when non-empty, else the first enumerated named graph, else nothing. -/
def selectFlatDump (st : Store) : List Triple :=
  if st.defaultGraph.isEmpty then
    match st.namedGraphs with
    | [] => []
    | (_, ts) :: _ => ts
  else st.defaultGraph

/-- Dataset dump: full dataset for dataset-capable formats, one selected
graph otherwise. -/
def mkDump (fmt : RdfFormatT) (pfxs : List (String × String)) (st : Store) : Output :=
  if fmt.supportsDatasets then .datasetOut (.fullDataset fmt pfxs st)
  else .datasetOut (.singleGraph fmt (selectFlatDump st))

/-- The final store serialization of `main` (output format resolution
included; default TriG). -/
def serializeStore (st : Store) (pfxs : List (String × String))
    (outputFormat : Option String) : Except String Output :=
  match outputFormat with
  | some f =>
    match RdfFormatT.fromExtension f with
    | none => .error ("Unknown output format: " ++ f)
    | some fmt => .ok (mkDump fmt pfxs st)
  | none => .ok (mkDump .trig pfxs st)

/-- The dispatch-and-output stage of `main`: try the text as a query (and
route its result); on query-parse failure try it as an update (mutating the
store and serializing the result); if both parses fail surface the
query-parse error. -/
def mainDispatch (ew : EngineWorld) (c : CollectOut) (outputFormat : Option String) :
    Except String Output :=
  match ew.parseQuery c.queryStr c.baseIri with
  | .ok q =>
    match queryToNewStoreOrSerialize ew.runQuery c.store q outputFormat with
    | .error e => .error e
    | .ok (.serialized o) => .ok o
    | .ok (.newStore st) => serializeStore st c.prefixes outputFormat
  | .error qerr =>
    match ew.parseUpdate c.queryStr c.baseIri with
    | .ok u =>
      match ew.runUpdate c.store u with
      | .error e => .error ("Update failed: " ++ e)
      | .ok st => serializeStore st c.prefixes outputFormat
    | .error _ => .error qerr

/-- `main`: collect input, then dispatch and serialize. -/
def runMain (iw : InputWorld) (ew : EngineWorld) (args : CliArgs) :
    Except String Output :=
  match collectInput iw args with
  | .error e => .error e
  | .ok c => mainDispatch ew c args.outputFormat

/-- A parser call resolves relative IRIs against the own file location:
file calls carry the file-derived IRI. -/
def callQ (c : ParserCall) : Prop :=
  ∀ p, c.source = SourceId.file p → c.base = some (graphIri p)

/-- Ordered justification of the parser-call trace (the no-override case):
every file call's base IRI is either the file's own file-derived IRI, or a
base IRI reported by a strictly earlier parser call of the trace. -/
def callsJustified (iw : InputWorld) (calls : List ParserCall) : Prop :=
  ∀ (i : Nat) (hi : i < calls.length) (p : String),
    (calls.get ⟨i, hi⟩).source = SourceId.file p →
    (calls.get ⟨i, hi⟩).base = some (graphIri p)
    ∨ ∃ c2 ∈ calls.take i, ∃ p2 sb2,
        c2 = ParserCall.mk (SourceId.file p2) (some sb2)
        ∧ (iw.fileReport p2 sb2).baseIri = (calls.get ⟨i, hi⟩).base

/-- The accumulated base IRI is justified by the trace: it is unset, or it
is the base IRI that some already-made file parser call discovered. -/
def baseJustified (iw : InputWorld) (calls : List ParserCall)
    (base : Option String) : Prop :=
  base = none
  ∨ ∃ c2 ∈ calls, ∃ p2 sb2,
      c2 = ParserCall.mk (SourceId.file p2) (some sb2)
      ∧ (iw.fileReport p2 sb2).baseIri = base

/-- Whether a collected run read standard input at all. -/
def stdinParticipated (out : CollectOut) : Bool :=
  out.calls.any ParserCall.isStdin

def stdinWasRead (r : Except String CollectOut) : Bool :=
  match r with
  | .ok out => stdinParticipated out
  | .error _ => false

def callsOfE (r : Except String CollectOut) : List ParserCall :=
  match r with
  | .ok out => out.calls
  | .error _ => []

/-! Concrete fixtures used by witnesses and counterexamples. -/

def emptyReport : SourceReport := { items := [], baseIri := none, prefixes := [] }

def exIW0 : InputWorld :=
  { openFile := fun _ => .ok ()
    fileReport := fun _ _ => emptyReport
    stdinReport := fun _ => emptyReport
    readQueryFile := fun _ => .ok "" }

def argsBase : CliArgs :=
  { inputFormat := none, outputFormat := none, baseIri := none,
    fileQuery := false, noStdin := false, query := none, file := [] }

def exArgs0 : CliArgs := { argsBase with noStdin := true }

def exC0 : CollectOut :=
  { store := emptyStore, baseIri := none, prefixes := [], queryStr := "",
    calls := [], diagnostics := [] }

def exEW0 : EngineWorld :=
  { parseQuery := fun _ _ => .error "qe"
    parseUpdate := fun _ _ => .error "ue"
    runQuery := fun _ _ => .error "unused"
    runUpdate := fun s _ => .ok s }

def exArgsC2 : CliArgs := { argsBase with file := ["a.ttl"] }

def exArgsDash : CliArgs := { argsBase with noStdin := true, file := ["-"] }

def exOutDash : CollectOut :=
  { store := emptyStore, baseIri := none, prefixes := [], queryStr := "",
    calls := [ParserCall.mk SourceId.stdin none], diagnostics := [] }

def exIW3 : InputWorld :=
  { exIW0 with fileReport := fun p _ =>
      if p = "a.ttl" then { items := [], baseIri := some "http://early/", prefixes := [] }
      else emptyReport }

def exArgs3 : CliArgs := { argsBase with noStdin := true, file := ["a.ttl", "b.ttl"] }

def exOut3 : CollectOut :=
  { store := emptyStore, baseIri := some "http://early/", prefixes := [],
    queryStr := "",
    calls := [ParserCall.mk (SourceId.file "a.ttl") (some "file:a.ttl"),
              ParserCall.mk (SourceId.file "b.ttl") (some "http://early/")],
    diagnostics := [] }

def exArgsCli : CliArgs :=
  { argsBase with baseIri := some "http://cli/", noStdin := true, file := ["a.ttl"] }

def exOutCli : CollectOut :=
  { store := emptyStore, baseIri := some "http://cli/", prefixes := [], queryStr := "",
    calls := [ParserCall.mk (SourceId.file "a.ttl") (some "http://cli/")],
    diagnostics := [] }

def exIW4 : InputWorld :=
  { exIW0 with openFile := fun p => if p = "bad.ttl" then .error "io" else .ok () }

def exArgs4 : CliArgs := { argsBase with noStdin := true, file := ["bad.ttl", "good.ttl"] }

def exIWerr : InputWorld :=
  { exIW0 with fileReport := fun _ _ =>
      { items := [Except.error "bad"], baseIri := none, prefixes := [] } }

def st0 : LoopState :=
  { store := emptyStore, baseIri := none, prefixes := [], queryFile := none,
    useStdin := false, calls := [], diagnostics := [] }

def rep5 : SourceReport :=
  { items := [], baseIri := none, prefixes := [("ex", "http://two/")] }

def exT6 : Triple := ⟨"s", "p", "o"⟩

def exQ : QueryAst := { tag := "q", unionDefaultGraph := false }

def exStore6 : Store := ⟨[⟨"a", "b", "c"⟩], []⟩

def rq6 : Store → QueryAst → Except String QueryResultsT :=
  fun _ _ => .ok (.graph [Except.ok exT6])

def ex7store : Store := ⟨[], [("g1", []), ("g2", [⟨"s", "p", "o"⟩])]⟩

def exEW7 : EngineWorld :=
  { parseQuery := fun _ _ => .error "not a query"
    parseUpdate := fun _ _ => .ok (UpdateAst.mk "u")
    runQuery := fun _ _ => .error "unused"
    runUpdate := fun _ _ => .ok ex7store }

def exArgs7 : CliArgs :=
  { argsBase with
    noStdin := true
    outputFormat := some "nt"
    query := some "CREATE GRAPH g1 then INSERT DATA into g2" }

def exSt7 : Store := ⟨[⟨"x", "y", "z"⟩], []⟩

def rqA : Store → QueryAst → Except String QueryResultsT :=
  fun _ q => if q.unionDefaultGraph then .ok (.boolean true) else .error "saw non-union"

def rqB : Store → QueryAst → Except String QueryResultsT :=
  fun _ q => if q.unionDefaultGraph then .ok (.boolean true) else .error "different"

/-- The state left by a skipped (failed-to-load) file: the parser was invoked
and a diagnostic recorded, but store, base IRI and prefixes are untouched. -/
def skipState (st : LoopState) (fpath e : String) : LoopState :=
  { st with
    calls := st.calls ++
      [ParserCall.mk (SourceId.file fpath) (some (st.baseIri.getD (graphIri fpath)))]
    diagnostics := st.diagnostics ++ ["Error in file " ++ fpath ++ ": " ++ e] }

/-! ## Helper lemmas on the prefix table and `loadData` -/

theorem lookupPfx_append_of_some (m l : List (String × String)) (k v : String)
    (h : lookupPfx m k = some v) : lookupPfx (m ++ l) k = some v := by
  induction m with
  | nil => simp [lookupPfx] at h
  | cons kv rest ih =>
    simp only [lookupPfx, List.cons_append] at h ⊢
    split at h
    · simp only [*, if_true]
    · simp only [*, if_false]
      exact ih h

theorem lookupPfx_insertPfx (m : List (String × String)) (kv : String × String)
    (k v : String) (h : lookupPfx m k = some v) :
    lookupPfx (insertPfx m kv) k = some v := by
  unfold insertPfx
  split
  · exact h
  · exact lookupPfx_append_of_some m [kv] k v h

theorem lookupPfx_mergePfxs (new : List (String × String)) :
    ∀ (m : List (String × String)) (k v : String),
    lookupPfx m k = some v → lookupPfx (mergePfxs m new) k = some v := by
  induction new with
  | nil => intro m k v h; exact h
  | cons kv rest ih =>
    intro m k v h
    exact ih (insertPfx m kv) k v (lookupPfx_insertPfx m kv k v h)

theorem loadData_ok_pfx (store : Store) (rep : SourceReport) (base : Option String)
    (pfxs : List (String × String))
    (out : Store × Option String × List (String × String)) (k v : String)
    (h : loadData store rep base pfxs = .ok out)
    (hl : lookupPfx pfxs k = some v) : lookupPfx out.2.2 k = some v := by
  unfold loadData at h
  cases hq : collectQuads rep.items with
  | error e => rw [hq] at h; exact absurd h (by simp)
  | ok quads =>
    rw [hq] at h
    simp only [Except.ok.injEq] at h
    subst h
    exact lookupPfx_mergePfxs rep.prefixes pfxs k v hl

theorem loadData_ok_base_some (store : Store) (rep : SourceReport) (b : String)
    (pfxs : List (String × String))
    (out : Store × Option String × List (String × String))
    (h : loadData store rep (some b) pfxs = .ok out) : out.2.1 = some b := by
  unfold loadData at h
  cases hq : collectQuads rep.items with
  | error e => rw [hq] at h; exact absurd h (by simp)
  | ok quads =>
    rw [hq] at h
    simp only [Except.ok.injEq] at h
    subst h
    rfl

theorem loadData_ok_base_none (store : Store) (rep : SourceReport)
    (pfxs : List (String × String))
    (out : Store × Option String × List (String × String))
    (hrep : rep.baseIri = none)
    (h : loadData store rep none pfxs = .ok out) : out.2.1 = none := by
  unfold loadData at h
  cases hq : collectQuads rep.items with
  | error e => rw [hq] at h; exact absurd h (by simp)
  | ok quads =>
    rw [hq] at h
    simp only [Except.ok.injEq] at h
    subst h
    simp [hrep]

theorem collectQuads_error_of_firstErr (items : List (Except String Quad)) (e : String)
    (h : firstErr items = some e) : collectQuads items = .error e := by
  induction items with
  | nil => simp [firstErr] at h
  | cons it rest ih =>
    cases it with
    | error e2 =>
      simp only [firstErr, Option.some.injEq] at h
      subst h
      rfl
    | ok q =>
      simp only [firstErr] at h
      simp only [collectQuads, ih h]

theorem loadData_error_of_firstErr (store : Store) (rep : SourceReport)
    (base : Option String) (pfxs : List (String × String)) (e : String)
    (h : firstErr rep.items = some e) :
    loadData store rep base pfxs = .error e := by
  unfold loadData
  rw [collectQuads_error_of_firstErr rep.items e h]

/-! ## Master invariant of one file-loop iteration -/

theorem processFile_ok_inv (iw : InputWorld) (st : LoopState) (f : String)
    (st2 : LoopState) (h : processFile iw st f = .ok st2) :
    st2.useStdin = (st.useStdin || decide (f = "-"))
  ∧ st2.calls.any ParserCall.isStdin = st.calls.any ParserCall.isStdin
  ∧ (∀ k v, lookupPfx st.prefixes k = some v → lookupPfx st2.prefixes k = some v)
  ∧ (extension f ≠ some "rq" → st2.queryFile = st.queryFile)
  ∧ (∀ b, st.baseIri = some b → (∀ c ∈ st.calls, c.base = some b) →
      st2.baseIri = some b ∧ ∀ c ∈ st2.calls, c.base = some b)
  ∧ ((∀ p sb, (iw.fileReport p sb).baseIri = none) → st.baseIri = none →
      (∀ c ∈ st.calls, callQ c) → st2.baseIri = none ∧ ∀ c ∈ st2.calls, callQ c) := by
  unfold processFile at h
  split at h
  next hdash =>
    simp only [Except.ok.injEq] at h
    subst h
    refine ⟨by simp [hdash], rfl, fun k v hv => hv, fun _ => rfl, ?_, ?_⟩
    · intro b hb hc; exact ⟨hb, hc⟩
    · intro _ hb hc; exact ⟨hb, hc⟩
  next hdash =>
    split at h
    next => exact absurd h (by simp)
    next ext hext =>
      split at h
      next hrq =>
        simp only [Except.ok.injEq] at h
        subst h
        refine ⟨by simp [hdash], rfl, fun k v hv => hv, ?_, ?_, ?_⟩
        · intro hne; exact absurd (by rw [hext, hrq]) hne
        · intro b hb hc; exact ⟨hb, hc⟩
        · intro _ hb hc; exact ⟨hb, hc⟩
      next hrq =>
        split at h
        next => exact absurd h (by simp)
        next fmt hfmt =>
          split at h
          next e hopen => exact absurd h (by simp)
          next u hopen =>
            cases hld : loadData st.store
                (iw.fileReport f (st.baseIri.getD (graphIri f)))
                st.baseIri st.prefixes with
            | error e =>
              rw [hld] at h
              simp only [Except.ok.injEq] at h
              subst h
              refine ⟨by simp [hdash], ?_, fun k v hv => hv, fun _ => rfl, ?_, ?_⟩
              · simp [List.any_append, ParserCall.isStdin]
              · intro b hb hc
                refine ⟨hb, ?_⟩
                intro c hc2
                rcases List.mem_append.mp hc2 with hmem | hmem
                · exact hc c hmem
                · simp only [List.mem_singleton] at hmem
                  subst hmem
                  simp [hb]
              · intro hrepn hb hc
                refine ⟨hb, ?_⟩
                intro c hc2
                rcases List.mem_append.mp hc2 with hmem | hmem
                · exact hc c hmem
                · simp only [List.mem_singleton] at hmem
                  subst hmem
                  intro p hp
                  simp only [ParserCall.mk.injEq, SourceId.file.injEq] at hp ⊢
                  cases hp
                  simp [hb]
            | ok out =>
              obtain ⟨store2, base2, pfxs2⟩ := out
              rw [hld] at h
              simp only [Except.ok.injEq] at h
              subst h
              refine ⟨by simp [hdash], ?_, ?_, fun _ => rfl, ?_, ?_⟩
              · simp [List.any_append, ParserCall.isStdin]
              · intro k v hv
                exact loadData_ok_pfx st.store _ st.baseIri st.prefixes
                  (store2, base2, pfxs2) k v hld hv
              · intro b hb hc
                have hbase : base2 = some b := by
                  rw [hb] at hld
                  exact loadData_ok_base_some st.store _ b st.prefixes
                    (store2, base2, pfxs2) hld
                refine ⟨hbase, ?_⟩
                intro c hc2
                rcases List.mem_append.mp hc2 with hmem | hmem
                · exact hc c hmem
                · simp only [List.mem_singleton] at hmem
                  subst hmem
                  simp [hb]
              · intro hrepn hb hc
                have hbase : base2 = none := by
                  rw [hb] at hld
                  exact loadData_ok_base_none st.store _ st.prefixes
                    (store2, base2, pfxs2) (hrepn f _) hld
                refine ⟨hbase, ?_⟩
                intro c hc2
                rcases List.mem_append.mp hc2 with hmem | hmem
                · exact hc c hmem
                · simp only [List.mem_singleton] at hmem
                  subst hmem
                  intro p hp
                  simp only [ParserCall.mk.injEq, SourceId.file.injEq] at hp ⊢
                  cases hp
                  simp [hb]

/-! ## Loop-level invariants -/

theorem collectFiles_ok_inv (iw : InputWorld) :
    ∀ (files : List String) (st st2 : LoopState),
    collectFiles iw files st = .ok st2 →
    st2.useStdin = (st.useStdin || files.any (fun f => decide (f = "-")))
  ∧ st2.calls.any ParserCall.isStdin = st.calls.any ParserCall.isStdin
  ∧ (∀ k v, lookupPfx st.prefixes k = some v → lookupPfx st2.prefixes k = some v)
  ∧ ((∀ f ∈ files, extension f ≠ some "rq") → st2.queryFile = st.queryFile)
  ∧ (∀ b, st.baseIri = some b → (∀ c ∈ st.calls, c.base = some b) →
      st2.baseIri = some b ∧ ∀ c ∈ st2.calls, c.base = some b)
  ∧ ((∀ p sb, (iw.fileReport p sb).baseIri = none) → st.baseIri = none →
      (∀ c ∈ st.calls, callQ c) → st2.baseIri = none ∧ ∀ c ∈ st2.calls, callQ c) := by
  intro files
  induction files with
  | nil =>
    intro st st2 h
    simp only [collectFiles, Except.ok.injEq] at h
    subst h
    exact ⟨by simp, rfl, fun k v hv => hv, fun _ => rfl,
      fun b hb hc => ⟨hb, hc⟩, fun _ hb hc => ⟨hb, hc⟩⟩
  | cons f rest ih =>
    intro st st2 h
    unfold collectFiles at h
    cases hpf : processFile iw st f with
    | error e => rw [hpf] at h; exact absurd h (by simp)
    | ok st1 =>
      rw [hpf] at h
      obtain ⟨h1u, h1c, h1p, h1q, h1b, h1n⟩ := processFile_ok_inv iw st f st1 hpf
      obtain ⟨h2u, h2c, h2p, h2q, h2b, h2n⟩ := ih st1 st2 h
      refine ⟨?_, ?_, ?_, ?_, ?_, ?_⟩
      · rw [h2u, h1u]; simp [Bool.or_assoc]
      · rw [h2c, h1c]
      · exact fun k v hv => h2p k v (h1p k v hv)
      · intro hrq
        rw [h2q (fun g hg => hrq g (List.mem_cons_of_mem f hg)),
          h1q (hrq f (List.mem_cons_self f rest))]
      · intro b hb hc
        obtain ⟨hb1, hc1⟩ := h1b b hb hc
        exact h2b b hb1 hc1
      · intro hrepn hb hc
        obtain ⟨hb1, hc1⟩ := h1n hrepn hb hc
        exact h2n hrepn hb1 hc1

theorem stdinStep_ok_inv (iw : InputWorld) (args : CliArgs) (st st2 : LoopState)
    (h : stdinStep iw args st = .ok st2) :
    st2.calls.any ParserCall.isStdin = (st.calls.any ParserCall.isStdin || st.useStdin)
  ∧ (∀ k v, lookupPfx st.prefixes k = some v → lookupPfx st2.prefixes k = some v)
  ∧ st2.queryFile = st.queryFile
  ∧ (∀ b, st.baseIri = some b → (∀ c ∈ st.calls, c.base = some b) →
      st2.baseIri = some b ∧ ∀ c ∈ st2.calls, c.base = some b)
  ∧ ((∀ c ∈ st.calls, callQ c) → ∀ c ∈ st2.calls, callQ c) := by
  unfold stdinStep at h
  split at h
  next htrue =>
    split at h
    next => exact absurd h (by simp)
    next fmt hfmt =>
      cases hld : loadData st.store (iw.stdinReport st.baseIri) st.baseIri st.prefixes with
      | error e => rw [hld] at h; exact absurd h (by simp)
      | ok out =>
        obtain ⟨store2, base2, pfxs2⟩ := out
        rw [hld] at h
        simp only [Except.ok.injEq] at h
        subst h
        refine ⟨?_, ?_, rfl, ?_, ?_⟩
        · simp [List.any_append, ParserCall.isStdin, htrue]
        · intro k v hv
          exact loadData_ok_pfx st.store _ st.baseIri st.prefixes
            (store2, base2, pfxs2) k v hld hv
        · intro b hb hc
          have hbase : base2 = some b := by
            rw [hb] at hld
            exact loadData_ok_base_some st.store _ b st.prefixes
              (store2, base2, pfxs2) hld
          refine ⟨hbase, ?_⟩
          intro c hc2
          rcases List.mem_append.mp hc2 with hm | hm
          · exact hc c hm
          · simp only [List.mem_singleton] at hm
            subst hm
            simp [hb]
        · intro hq c hc2
          rcases List.mem_append.mp hc2 with hm | hm
          · exact hq c hm
          · simp only [List.mem_singleton] at hm
            subst hm
            intro p hp
            exact absurd hp (by simp)
  next hfalse =>
    simp only [Except.ok.injEq] at h
    subst h
    refine ⟨?_, fun k v hv => hv, rfl, fun b hb hc => ⟨hb, hc⟩, fun hq => hq⟩
    have : st.useStdin = false := by
      cases hu : st.useStdin
      · rfl
      · exact absurd hu hfalse
    simp [this]

theorem queryStep_ok_inv (iw : InputWorld) (args : CliArgs) (st : LoopState)
    (out : CollectOut) (h : queryStep iw args st = .ok out) :
    out.calls = st.calls ∧ out.prefixes = st.prefixes ∧ out.baseIri = st.baseIri
  ∧ out.store = st.store
  ∧ (st.queryFile = none → inlineQueryOf args = none → out.queryStr = "")
  ∧ (st.queryFile = none → ∀ body, inlineQueryOf args = some body →
      out.queryStr = prefixLines st.prefixes ++ body) := by
  unfold queryStep at h
  cases hqf : st.queryFile with
  | some fp =>
    simp only [hqf] at h
    cases hrd : iw.readQueryFile fp with
    | error e => simp only [hrd] at h; exact absurd h (by simp)
    | ok content =>
      simp only [hrd, Except.ok.injEq] at h
      subst h
      refine ⟨rfl, rfl, rfl, rfl, ?_, ?_⟩
      · intro hn; exact absurd hn (by simp)
      · intro hn; exact absurd hn (by simp)
  | none =>
    simp only [hqf] at h
    cases hin : inlineQueryOf args with
    | some body =>
      simp only [hin, Except.ok.injEq] at h
      subst h
      refine ⟨rfl, rfl, rfl, rfl, ?_, ?_⟩
      · intro _ hn; exact absurd hn (by simp)
      · intro _ body2 hb
        simp only [Option.some.injEq] at hb
        subst hb
        rfl
    | none =>
      simp only [hin, Except.ok.injEq] at h
      subst h
      refine ⟨rfl, rfl, rfl, rfl, fun _ _ => rfl, ?_⟩
      intro _ body2 hb
      exact absurd hb (by simp)

theorem collectInput_ok_destruct (iw : InputWorld) (args : CliArgs) (out : CollectOut)
    (h : collectInput iw args = .ok out) :
    ∃ st1 st2,
      collectFiles iw (filesAfterFileQuery args)
        (initState args (filesAfterFileQuery args)) = .ok st1
      ∧ stdinStep iw args st1 = .ok st2
      ∧ queryStep iw args st2 = .ok out := by
  unfold collectInput at h
  cases h1 : collectFiles iw (filesAfterFileQuery args)
      (initState args (filesAfterFileQuery args)) with
  | error e => simp only [h1] at h; exact absurd h (by simp)
  | ok st1 =>
    simp only [h1] at h
    cases h2 : stdinStep iw args st1 with
    | error e => simp only [h2] at h; exact absurd h (by simp)
    | ok st2 =>
      simp only [h2] at h
      exact ⟨st1, st2, rfl, h2, h⟩

/-! ## Helpers on the dispatch and output stages -/

theorem mkDump_isDatasetOut (fmt : RdfFormatT) (pfxs : List (String × String))
    (st : Store) : (mkDump fmt pfxs st).isDatasetOut = true := by
  unfold mkDump
  split <;> rfl

theorem serializeStore_isDatasetOut (st : Store) (pfxs : List (String × String))
    (f : Option String) (o : Output) (h : serializeStore st pfxs f = .ok o) :
    o.isDatasetOut = true := by
  unfold serializeStore at h
  cases f with
  | none =>
    simp only [Except.ok.injEq] at h
    subst h
    exact mkDump_isDatasetOut .trig pfxs st
  | some f2 =>
    cases hf : RdfFormatT.fromExtension f2 with
    | none => simp only [hf] at h; exact absurd h (by simp)
    | some fmt =>
      simp only [hf, Except.ok.injEq] at h
      subst h
      exact mkDump_isDatasetOut fmt pfxs st

theorem insertQuad_default_namedGraphs (st : Store) (a b c : String) :
    (st.insertQuad ⟨a, b, c, none⟩).namedGraphs = st.namedGraphs := rfl

theorem mem_insertQuad_default (st : Store) (a b c : String) (x : Triple) :
    x ∈ (st.insertQuad ⟨a, b, c, none⟩).defaultGraph ↔
      x ∈ st.defaultGraph ∨ x = ⟨a, b, c⟩ := by
  show x ∈ (if (⟨a, b, c⟩ : Triple) ∈ st.defaultGraph then st.defaultGraph
      else st.defaultGraph ++ [⟨a, b, c⟩]) ↔ _
  split
  next hmem =>
    constructor
    · exact fun hx => Or.inl hx
    · rintro (hx | hx)
      · exact hx
      · rw [hx]; exact hmem
  next hmem =>
    rw [List.mem_append, List.mem_singleton]

theorem buildConstruct_aux (ts : List Triple) :
    ∀ st0 : Store,
    (ts.foldl (fun st t => st.insertQuad ⟨t.s, t.p, t.o, none⟩) st0).namedGraphs
      = st0.namedGraphs
  ∧ ∀ x, x ∈ (ts.foldl (fun st t => st.insertQuad ⟨t.s, t.p, t.o, none⟩)
      st0).defaultGraph ↔ x ∈ st0.defaultGraph ∨ x ∈ ts := by
  induction ts with
  | nil =>
    intro st0
    exact ⟨rfl, fun x => by simp⟩
  | cons t rest ih =>
    intro st0
    simp only [List.foldl_cons]
    obtain ⟨hn, hm⟩ := ih (st0.insertQuad ⟨t.s, t.p, t.o, none⟩)
    refine ⟨by rw [hn]; rfl, ?_⟩
    intro x
    rw [hm x, mem_insertQuad_default st0 t.s t.p t.o x]
    have ht : (⟨t.s, t.p, t.o⟩ : Triple) = t := rfl
    rw [ht, List.mem_cons]
    tauto

theorem buildConstructStore_named (ts : List Triple) :
    (buildConstructStore ts).namedGraphs = [] :=
  (buildConstruct_aux ts emptyStore).1

theorem mem_buildConstructStore (ts : List Triple) (x : Triple) :
    x ∈ (buildConstructStore ts).defaultGraph ↔ x ∈ ts := by
  have h := (buildConstruct_aux ts emptyStore).2 x
  unfold buildConstructStore
  rw [h]
  simp [emptyStore]

theorem processFile_skips (iw : InputWorld) (st : LoopState) (fpath ext2 : String)
    (fmt : RdfFormatT) (e : String)
    (hext : extension fpath = some ext2) (hrq : ext2 ≠ "rq") (hdash : fpath ≠ "-")
    (hfmt : RdfFormatT.fromExtension ext2 = some fmt)
    (hopen : iw.openFile fpath = .ok ())
    (herr : firstErr (iw.fileReport fpath (st.baseIri.getD (graphIri fpath))).items
      = some e) :
    processFile iw st fpath = .ok (skipState st fpath e) := by
  have hld := loadData_error_of_firstErr st.store
    (iw.fileReport fpath (st.baseIri.getD (graphIri fpath))) st.baseIri st.prefixes e herr
  simp only [processFile, if_neg hdash, hext, if_neg hrq, hfmt, hopen, hld, skipState]

theorem processFile_open_fatal (iw : InputWorld) (st : LoopState)
    (fpath ext2 : String) (fmt : RdfFormatT) (msg : String)
    (hext : extension fpath = some ext2) (hrq : ext2 ≠ "rq") (hdash : fpath ≠ "-")
    (hfmt : RdfFormatT.fromExtension ext2 = some fmt)
    (hopen : iw.openFile fpath = .error msg) :
    processFile iw st fpath = .error ("Unable to open file: " ++ fpath ++ ": " ++ msg) := by
  simp only [processFile, if_neg hdash, hext, if_neg hrq, hfmt, hopen]

theorem stdinStep_fatal (iw : InputWorld) (args : CliArgs) (st : LoopState)
    (fmt : RdfFormatT) (e : String)
    (hu : st.useStdin = true) (hf : stdinFormat args = .ok fmt)
    (herr : firstErr (iw.stdinReport st.baseIri).items = some e) :
    stdinStep iw args st = .error e := by
  have hld := loadData_error_of_firstErr st.store (iw.stdinReport st.baseIri)
    st.baseIri st.prefixes e herr
  simp only [stdinStep, hu, hf, hld, if_true]

/-! ## Tracking the origin of the accumulated base IRI along the trace -/

theorem baseJustified_append (iw : InputWorld) (calls l : List ParserCall)
    (base : Option String) (h : baseJustified iw calls base) :
    baseJustified iw (calls ++ l) base := by
  rcases h with h | ⟨c2, hc2, p2, sb2, hc, hr⟩
  · exact Or.inl h
  · exact Or.inr ⟨c2, List.mem_append_left l hc2, p2, sb2, hc, hr⟩

theorem callsJustified_append (iw : InputWorld) (calls : List ParserCall)
    (c : ParserCall) (h : callsJustified iw calls)
    (hc : ∀ p, c.source = SourceId.file p →
      c.base = some (graphIri p)
      ∨ ∃ c2 ∈ calls, ∃ p2 sb2, c2 = ParserCall.mk (SourceId.file p2) (some sb2)
          ∧ (iw.fileReport p2 sb2).baseIri = c.base) :
    callsJustified iw (calls ++ [c]) := by
  intro i hi p hp
  rcases Nat.lt_or_ge i calls.length with hlt | hge
  · have hget : (calls ++ [c]).get ⟨i, hi⟩ = calls.get ⟨i, hlt⟩ := by
      simp only [List.get_eq_getElem]
      exact List.getElem_append_left hlt
    have htake : (calls ++ [c]).take i = calls.take i :=
      List.take_append_of_le_length (Nat.le_of_lt hlt)
    rw [hget] at hp ⊢
    rw [htake]
    exact h i hlt p hp
  · have hlen : i = calls.length := by
      have hi2 : i < calls.length + 1 := by simpa using hi
      omega
    subst hlen
    have hget : (calls ++ [c]).get ⟨calls.length, hi⟩ = c := by
      simp only [List.get_eq_getElem]
      exact List.getElem_concat_length calls c calls.length rfl _
    have htake : (calls ++ [c]).take calls.length = calls := List.take_left calls [c]
    rw [hget] at hp ⊢
    rw [htake]
    exact hc p hp

theorem loadData_ok_base_shape (store : Store) (rep : SourceReport)
    (base : Option String) (pfxs : List (String × String))
    (out : Store × Option String × List (String × String))
    (h : loadData store rep base pfxs = .ok out) :
    out.2.1 = base ∨ (base = none ∧ out.2.1 = rep.baseIri) := by
  unfold loadData at h
  cases hq : collectQuads rep.items with
  | error e => rw [hq] at h; exact absurd h (by simp)
  | ok quads =>
    rw [hq] at h
    simp only [Except.ok.injEq] at h
    subst h
    cases base with
    | some b => exact Or.inl rfl
    | none => exact Or.inr ⟨rfl, rfl⟩

theorem processFile_base_track (iw : InputWorld) (st : LoopState) (f : String)
    (st2 : LoopState) (h : processFile iw st f = .ok st2) :
    (st2.calls = st.calls ∨
      st2.calls = st.calls ++
        [ParserCall.mk (SourceId.file f) (some (st.baseIri.getD (graphIri f)))])
  ∧ (callsJustified iw st.calls → baseJustified iw st.calls st.baseIri →
      callsJustified iw st2.calls ∧ baseJustified iw st2.calls st2.baseIri) := by
  unfold processFile at h
  split at h
  next hdash =>
    simp only [Except.ok.injEq] at h
    subst h
    exact ⟨Or.inl rfl, fun hJ hB => ⟨hJ, hB⟩⟩
  next hdash =>
    split at h
    next => exact absurd h (by simp)
    next ext hext =>
      split at h
      next hrq =>
        simp only [Except.ok.injEq] at h
        subst h
        exact ⟨Or.inl rfl, fun hJ hB => ⟨hJ, hB⟩⟩
      next hrq =>
        split at h
        next => exact absurd h (by simp)
        next fmt hfmt =>
          split at h
          next e hopen => exact absurd h (by simp)
          next u hopen =>
            cases hld : loadData st.store
                (iw.fileReport f (st.baseIri.getD (graphIri f)))
                st.baseIri st.prefixes with
            | error e =>
              rw [hld] at h
              simp only [Except.ok.injEq] at h
              subst h
              refine ⟨Or.inr rfl, fun hJ hB => ⟨?_, ?_⟩⟩
              · refine callsJustified_append iw st.calls _ hJ ?_
                intro p hp
                simp only [SourceId.file.injEq] at hp
                subst hp
                cases hb : st.baseIri with
                | none => exact Or.inl rfl
                | some b =>
                  rcases hB with hBn | ⟨c2, hc2, p2, sb2, hceq, hrep⟩
                  · rw [hb] at hBn; exact absurd hBn (by simp)
                  · right
                    refine ⟨c2, hc2, p2, sb2, hceq, ?_⟩
                    rw [hrep, hb]
                    rfl
              · exact baseJustified_append iw st.calls _ st.baseIri hB
            | ok out =>
              obtain ⟨store2, base2, pfxs2⟩ := out
              rw [hld] at h
              simp only [Except.ok.injEq] at h
              subst h
              refine ⟨Or.inr rfl, fun hJ hB => ⟨?_, ?_⟩⟩
              · refine callsJustified_append iw st.calls _ hJ ?_
                intro p hp
                simp only [SourceId.file.injEq] at hp
                subst hp
                cases hb : st.baseIri with
                | none => exact Or.inl rfl
                | some b =>
                  rcases hB with hBn | ⟨c2, hc2, p2, sb2, hceq, hrep⟩
                  · rw [hb] at hBn; exact absurd hBn (by simp)
                  · right
                    refine ⟨c2, hc2, p2, sb2, hceq, ?_⟩
                    rw [hrep, hb]
                    rfl
              · rcases loadData_ok_base_shape st.store
                    (iw.fileReport f (st.baseIri.getD (graphIri f)))
                    st.baseIri st.prefixes (store2, base2, pfxs2) hld with
                  hsame | ⟨hnone, hrep⟩
                · rw [show base2 = st.baseIri from hsame]
                  exact baseJustified_append iw st.calls _ st.baseIri hB
                · cases hrb : (iw.fileReport f (st.baseIri.getD (graphIri f))).baseIri with
                  | none =>
                    left
                    rw [show base2 = (iw.fileReport f
                      (st.baseIri.getD (graphIri f))).baseIri from hrep, hrb]
                  | some b2 =>
                    right
                    refine ⟨ParserCall.mk (SourceId.file f)
                        (some (st.baseIri.getD (graphIri f))),
                      List.mem_append_right _ (List.mem_singleton_self _),
                      f, st.baseIri.getD (graphIri f), rfl, ?_⟩
                    rw [show base2 = (iw.fileReport f
                      (st.baseIri.getD (graphIri f))).baseIri from hrep]

theorem collectFiles_justified (iw : InputWorld) :
    ∀ (files : List String) (st st2 : LoopState),
    collectFiles iw files st = .ok st2 →
    callsJustified iw st.calls → baseJustified iw st.calls st.baseIri →
    callsJustified iw st2.calls ∧ baseJustified iw st2.calls st2.baseIri := by
  intro files
  induction files with
  | nil =>
    intro st st2 h hJ hB
    simp only [collectFiles, Except.ok.injEq] at h
    subst h
    exact ⟨hJ, hB⟩
  | cons f rest ih =>
    intro st st2 h hJ hB
    unfold collectFiles at h
    cases hpf : processFile iw st f with
    | error e => rw [hpf] at h; exact absurd h (by simp)
    | ok st1 =>
      rw [hpf] at h
      obtain ⟨hJ1, hB1⟩ := (processFile_base_track iw st f st1 hpf).2 hJ hB
      exact ih st1 st2 h hJ1 hB1

theorem stdinStep_justified (iw : InputWorld) (args : CliArgs) (st st2 : LoopState)
    (h : stdinStep iw args st = .ok st2) (hJ : callsJustified iw st.calls) :
    callsJustified iw st2.calls := by
  unfold stdinStep at h
  split at h
  next htrue =>
    split at h
    next => exact absurd h (by simp)
    next fmt hfmt =>
      cases hld : loadData st.store (iw.stdinReport st.baseIri) st.baseIri st.prefixes with
      | error e => rw [hld] at h; exact absurd h (by simp)
      | ok out =>
        obtain ⟨store2, base2, pfxs2⟩ := out
        rw [hld] at h
        simp only [Except.ok.injEq] at h
        subst h
        exact callsJustified_append iw st.calls _ hJ (fun p hp => absurd hp (by simp))
  next hfalse =>
    simp only [Except.ok.injEq] at h
    subst h
    exact hJ

/-! ## Claim theorems -/

/-- C1: the operation dispatcher first attempts a query parse: a successfully
parsed query is executed as a query and never as an update (the result does
not depend on the update parser or update engine at all); if query parsing
fails and update parsing succeeds, the update mutates the store and the
mutated store is serialized as a dataset, never as query results; if both
parses fail, the surfaced error is the query-parse error. -/
theorem c1_dispatch (iw : InputWorld) (ew : EngineWorld) (args : CliArgs)
    (c : CollectOut) (hc : collectInput iw args = .ok c) :
    (∀ q, ew.parseQuery c.queryStr c.baseIri = .ok q →
      (∀ pu ru, runMain iw { ew with parseUpdate := pu, runUpdate := ru } args
          = runMain iw ew args)
      ∧ runMain iw ew args =
          (match queryToNewStoreOrSerialize ew.runQuery c.store q args.outputFormat with
           | .error e => .error e
           | .ok (.serialized o) => .ok o
           | .ok (.newStore st) => serializeStore st c.prefixes args.outputFormat))
  ∧ (∀ e u st2, ew.parseQuery c.queryStr c.baseIri = .error e →
      ew.parseUpdate c.queryStr c.baseIri = .ok u →
      ew.runUpdate c.store u = .ok st2 →
      runMain iw ew args = serializeStore st2 c.prefixes args.outputFormat
      ∧ ∀ o, runMain iw ew args = .ok o → o.isDatasetOut = true)
  ∧ (∀ e e2, ew.parseQuery c.queryStr c.baseIri = .error e →
      ew.parseUpdate c.queryStr c.baseIri = .error e2 →
      runMain iw ew args = .error e) := by
  refine ⟨?_, ?_, ?_⟩
  · intro q hq
    constructor
    · intro pu ru
      unfold runMain mainDispatch
      simp only [hc, hq]
    · unfold runMain mainDispatch
      simp only [hc, hq]
  · intro e u st2 hq hu hru
    constructor
    · unfold runMain mainDispatch
      simp only [hc, hq, hu, hru]
    · intro o ho
      unfold runMain mainDispatch at ho
      simp only [hc, hq, hu, hru] at ho
      exact serializeStore_isDatasetOut st2 c.prefixes args.outputFormat o ho
  · intro e e2 hq hu
    unfold runMain mainDispatch
    simp only [hc, hq, hu]

theorem c1_dispatch_witness :
    collectInput exIW0 exArgs0 = .ok exC0
    ∧ runMain exIW0 exEW0 exArgs0 = .error "qe" :=
  ⟨rfl, (c1_dispatch exIW0 exEW0 exArgs0 exC0 rfl).2.2 "qe" "ue" rfl rfl⟩

/-- C2 counterexample: with the no-stdin flag unset and one data file given,
the claim predicts stdin participation, but the run reads no stdin at all
(`use_stdin = !no_stdin && file.len() == 0` is false as soon as any file
argument exists). -/
theorem c2_counterexample :
    stdinWasRead (collectInput exIW0 exArgsC2) = false
    ∧ exArgsC2.noStdin = false
    ∧ exArgsC2.file = ["a.ttl"] := ⟨rfl, rfl, rfl⟩

/-- C2 (amended): standard input participates iff the no-stdin flag is unset
AND the file-argument list (after the file-query reinterpretation) is empty,
OR the sentinel `-` appears among the file arguments; in particular any file
argument suppresses stdin even without the flag, while `-` forces it. -/
theorem c2_stdin_participation (iw : InputWorld) (args : CliArgs) (out : CollectOut)
    (h : collectInput iw args = .ok out) :
    stdinParticipated out =
      ((!args.noStdin && (filesAfterFileQuery args).isEmpty)
        || (filesAfterFileQuery args).any (fun f => decide (f = "-"))) := by
  obtain ⟨st1, st2, h1, h2, h3⟩ := collectInput_ok_destruct iw args out h
  have h1u := (collectFiles_ok_inv iw _ _ _ h1).1
  have h1c := (collectFiles_ok_inv iw _ _ _ h1).2.1
  have h2c := (stdinStep_ok_inv iw args _ _ h2).1
  have hcalls := (queryStep_ok_inv iw args _ _ h3).1
  unfold stdinParticipated
  rw [hcalls, h2c, h1c, h1u]
  simp [initState]

theorem c2_stdin_participation_witness :
    collectInput exIW0 exArgsDash = .ok exOutDash
    ∧ stdinParticipated exOutDash =
      ((!exArgsDash.noStdin && (filesAfterFileQuery exArgsDash).isEmpty)
        || (filesAfterFileQuery exArgsDash).any (fun f => decide (f = "-"))) :=
  ⟨rfl, c2_stdin_participation exIW0 exArgsDash exOutDash rfl⟩

/-- C3 counterexample: with no command-line base IRI, the second file is
parsed with the base IRI discovered in the first (unrelated) file, not with
its own file-derived IRI. -/
theorem c3_counterexample :
    callsOfE (collectInput exIW3 exArgs3) =
      [ParserCall.mk (SourceId.file "a.ttl") (some "file:a.ttl"),
       ParserCall.mk (SourceId.file "b.ttl") (some "http://early/")]
    ∧ exArgs3.baseIri = none
    ∧ graphIri "b.ttl" = "file:b.ttl" := ⟨rfl, rfl, rfl⟩

/-- C3 (amended): the base IRI supplied to a file parser is the accumulated
base IRI at the moment the file is processed, with precedence command-line
override, then a base IRI discovered by an earlier source, then the file's
own file-path-derived IRI: (i) a given override is carried by every parser
call; (ii) each data-file parser invocation carries exactly the accumulated
base when one exists, else the file-derived IRI; (iii) with no override,
every file call's base is its own file-derived IRI or a base IRI reported by
a strictly earlier parser call of the trace; (iv) when additionally no source
reports a base IRI, every file resolves against its own file-derived IRI. -/
theorem c3_file_base_iri :
    (∀ (iw : InputWorld) (args : CliArgs) (out : CollectOut) (b : String),
       collectInput iw args = .ok out → args.baseIri = some b →
       ∀ c ∈ out.calls, c.base = some b)
  ∧ (∀ (iw : InputWorld) (st : LoopState) (f : String) (st2 : LoopState),
       processFile iw st f = .ok st2 →
       st2.calls = st.calls ∨
       st2.calls = st.calls ++
         [ParserCall.mk (SourceId.file f) (some (st.baseIri.getD (graphIri f)))])
  ∧ (∀ (iw : InputWorld) (args : CliArgs) (out : CollectOut),
       args.baseIri = none → collectInput iw args = .ok out →
       callsJustified iw out.calls)
  ∧ (∀ (iw : InputWorld) (args : CliArgs) (out : CollectOut),
       (∀ p sb, (iw.fileReport p sb).baseIri = none) →
       args.baseIri = none → collectInput iw args = .ok out →
       ∀ c ∈ out.calls, callQ c) := by
  refine ⟨?_, ?_, ?_, ?_⟩
  · intro iw args out b h hb c hc
    obtain ⟨st1, st2, h1, h2, h3⟩ := collectInput_ok_destruct iw args out h
    have h1b := (collectFiles_ok_inv iw _ _ _ h1).2.2.2.2.1
    have h2b := (stdinStep_ok_inv iw args _ _ h2).2.2.2.1
    have hcalls := (queryStep_ok_inv iw args _ _ h3).1
    have hinit1 : (initState args (filesAfterFileQuery args)).baseIri = some b := by
      simp [initState, hb]
    have hinit2 : ∀ c2 ∈ (initState args (filesAfterFileQuery args)).calls,
        c2.base = some b := by
      simp [initState]
    obtain ⟨hb1, hc1⟩ := h1b b hinit1 hinit2
    obtain ⟨hb2, hc2⟩ := h2b b hb1 hc1
    rw [hcalls] at hc
    exact hc2 c hc
  · intro iw st f st2 h
    exact (processFile_base_track iw st f st2 h).1
  · intro iw args out hb h
    obtain ⟨st1, st2, h1, h2, h3⟩ := collectInput_ok_destruct iw args out h
    have hJ0 : callsJustified iw (initState args (filesAfterFileQuery args)).calls := by
      intro i hi p
      simp [initState] at hi
    have hB0 : baseJustified iw (initState args (filesAfterFileQuery args)).calls
        (initState args (filesAfterFileQuery args)).baseIri := by
      left
      simp [initState, hb]
    obtain ⟨hJ1, hB1⟩ := collectFiles_justified iw _ _ _ h1 hJ0 hB0
    have hJ2 := stdinStep_justified iw args _ _ h2 hJ1
    rw [(queryStep_ok_inv iw args _ _ h3).1]
    exact hJ2
  · intro iw args out hrepn hb h c hc
    obtain ⟨st1, st2, h1, h2, h3⟩ := collectInput_ok_destruct iw args out h
    have h1n := (collectFiles_ok_inv iw _ _ _ h1).2.2.2.2.2
    have h2n := (stdinStep_ok_inv iw args _ _ h2).2.2.2.2
    have hcalls := (queryStep_ok_inv iw args _ _ h3).1
    have hinit1 : (initState args (filesAfterFileQuery args)).baseIri = none := by
      simp [initState, hb]
    have hinit2 : ∀ c2 ∈ (initState args (filesAfterFileQuery args)).calls,
        callQ c2 := by
      simp [initState]
    obtain ⟨hb1, hc1⟩ := h1n hrepn hinit1 hinit2
    have hc2 := h2n hc1
    rw [hcalls] at hc
    exact hc2 c hc

theorem c3_file_base_iri_witness :
    exArgs3.baseIri = none
    ∧ collectInput exIW3 exArgs3 = .ok exOut3
    ∧ callsJustified exIW3 exOut3.calls
    ∧ collectInput exIW0 exArgsCli = .ok exOutCli
    ∧ (ParserCall.mk (SourceId.file "a.ttl") (some "http://cli/")).base
        = some "http://cli/" :=
  ⟨rfl, rfl, c3_file_base_iri.2.2.1 exIW3 exArgs3 exOut3 rfl rfl, rfl,
   c3_file_base_iri.1 exIW0 exArgsCli exOutCli "http://cli/" rfl rfl
     (ParserCall.mk (SourceId.file "a.ttl") (some "http://cli/")) (by simp [exOutCli])⟩

/-- C4 counterexample: a failure to OPEN a file is fatal (the `?` on
`File::open`), aborting the whole run instead of skipping the file — the
remaining file is never loaded. -/
theorem c4_counterexample :
    collectInput exIW4 exArgs4 = .error "Unable to open file: bad.ttl: io"
    ∧ exArgs4.file = ["bad.ttl", "good.ttl"] := ⟨rfl, rfl⟩

/-- C4 (amended): a failure to read or parse a file source is recoverable —
the error becomes a diagnostic, the source is skipped with the accumulated
state untouched, and the loop continues with the remaining sources; but a
failure to open a file is fatal, as is a failure reading or parsing standard
input. -/
theorem c4_failure_scopes :
    (∀ (iw : InputWorld) (st : LoopState) (fpath ext2 : String) (fmt : RdfFormatT)
       (e : String) (rest : List String),
       extension fpath = some ext2 → ext2 ≠ "rq" → fpath ≠ "-" →
       RdfFormatT.fromExtension ext2 = some fmt →
       iw.openFile fpath = .ok () →
       firstErr (iw.fileReport fpath (st.baseIri.getD (graphIri fpath))).items
         = some e →
       processFile iw st fpath = .ok (skipState st fpath e)
       ∧ collectFiles iw (fpath :: rest) st = collectFiles iw rest (skipState st fpath e))
  ∧ (∀ (iw : InputWorld) (st : LoopState) (fpath ext2 : String) (fmt : RdfFormatT)
       (msg : String),
       extension fpath = some ext2 → ext2 ≠ "rq" → fpath ≠ "-" →
       RdfFormatT.fromExtension ext2 = some fmt →
       iw.openFile fpath = .error msg →
       processFile iw st fpath = .error ("Unable to open file: " ++ fpath ++ ": " ++ msg))
  ∧ (∀ (iw : InputWorld) (args : CliArgs) (st1 : LoopState) (fmt : RdfFormatT)
       (e : String),
       collectFiles iw (filesAfterFileQuery args)
         (initState args (filesAfterFileQuery args)) = .ok st1 →
       st1.useStdin = true →
       stdinFormat args = .ok fmt →
       firstErr (iw.stdinReport st1.baseIri).items = some e →
       collectInput iw args = .error e) := by
  refine ⟨?_, ?_, ?_⟩
  · intro iw st fpath ext2 fmt e rest hext hrq hdash hfmt hopen herr
    have hpf := processFile_skips iw st fpath ext2 fmt e hext hrq hdash hfmt hopen herr
    refine ⟨hpf, ?_⟩
    conv_lhs => rw [collectFiles.eq_def]
    simp only [hpf]
  · intro iw st fpath ext2 fmt msg hext hrq hdash hfmt hopen
    exact processFile_open_fatal iw st fpath ext2 fmt msg hext hrq hdash hfmt hopen
  · intro iw args st1 fmt e h1 hu hf herr
    have hss := stdinStep_fatal iw args st1 fmt e hu hf herr
    unfold collectInput
    simp only [h1, hss]

theorem c4_failure_scopes_witness :
    firstErr ((exIWerr.fileReport "c.ttl" (st0.baseIri.getD (graphIri "c.ttl"))).items)
      = some "bad"
    ∧ processFile exIWerr st0 "c.ttl" = .ok (skipState st0 "c.ttl" "bad") :=
  ⟨rfl, (c4_failure_scopes.1 exIWerr st0 "c.ttl" "ttl" .turtle "bad" []
    rfl (by decide) (by decide) rfl rfl rfl).1⟩

/-- C5: the accumulated prefix table is first-wins — an existing binding
survives any later source (through one load and through the whole file loop),
and the PREFIX lines prepended to an inline query body are generated from
exactly that accumulated table. -/
theorem c5_first_wins :
    (∀ (store : Store) (rep : SourceReport) (base : Option String)
       (pfxs : List (String × String))
       (out : Store × Option String × List (String × String)) (k v : String),
       loadData store rep base pfxs = .ok out →
       lookupPfx pfxs k = some v → lookupPfx out.2.2 k = some v)
  ∧ (∀ (iw : InputWorld) (files : List String) (st st2 : LoopState) (k v : String),
       collectFiles iw files st = .ok st2 →
       lookupPfx st.prefixes k = some v → lookupPfx st2.prefixes k = some v)
  ∧ (∀ (iw : InputWorld) (args : CliArgs) (out : CollectOut) (body : String),
       collectInput iw args = .ok out →
       args.fileQuery = false → args.query = some body →
       (∀ f ∈ filesAfterFileQuery args, extension f ≠ some "rq") →
       out.queryStr = prefixLines out.prefixes ++ body) := by
  refine ⟨?_, ?_, ?_⟩
  · intro store rep base pfxs out k v h hv
    exact loadData_ok_pfx store rep base pfxs out k v h hv
  · intro iw files st st2 k v h hv
    exact (collectFiles_ok_inv iw files st st2 h).2.2.1 k v hv
  · intro iw args out body h hfq hq hrq
    obtain ⟨st1, st2, h1, h2, h3⟩ := collectInput_ok_destruct iw args out h
    have hq1 : st1.queryFile = none := by
      rw [(collectFiles_ok_inv iw _ _ _ h1).2.2.2.1 hrq]
      rfl
    have hq2 : st2.queryFile = none := by
      rw [(stdinStep_ok_inv iw args _ _ h2).2.2.1]
      exact hq1
    have hin : inlineQueryOf args = some body := by
      unfold inlineQueryOf
      rw [hfq]
      simpa using hq
    have hqs := (queryStep_ok_inv iw args _ _ h3).2.2.2.2.2 hq2 body hin
    have hpfx := (queryStep_ok_inv iw args _ _ h3).2.1
    rw [hqs, hpfx]

theorem c5_first_wins_witness :
    loadData emptyStore rep5 none [("ex", "http://one/")] =
      .ok (emptyStore, none, [("ex", "http://one/")])
    ∧ lookupPfx [("ex", "http://one/")] "ex" = some "http://one/" :=
  ⟨rfl, c5_first_wins.1 emptyStore rep5 none [("ex", "http://one/")]
    (emptyStore, none, [("ex", "http://one/")]) "ex" "http://one/" rfl rfl⟩

/-- C6: a graph (CONSTRUCT/DESCRIBE) result builds a fresh store holding
exactly the produced triples as default-graph quads — independent of the
original store — and that fresh store is what flows into dataset
serialization, wholly replacing the original dataset. -/
theorem c6_construct_replaces
    (rq : Store → QueryAst → Except String QueryResultsT)
    (store : Store) (q : QueryAst) (f : Option String)
    (items : List (Except String Triple)) (ts : List Triple)
    (hr : rq store (setUnionDefaultGraph q) = .ok (.graph items))
    (hts : collectItems items = .ok ts) :
    queryToNewStoreOrSerialize rq store q f = .ok (.newStore (buildConstructStore ts))
    ∧ (buildConstructStore ts).namedGraphs = []
    ∧ (∀ x, x ∈ (buildConstructStore ts).defaultGraph ↔ x ∈ ts)
    ∧ (∀ (iw : InputWorld) (ew : EngineWorld) (args : CliArgs) (c : CollectOut),
        collectInput iw args = .ok c →
        ew.parseQuery c.queryStr c.baseIri = .ok q →
        ew.runQuery c.store (setUnionDefaultGraph q) = .ok (.graph items) →
        runMain iw ew args =
          serializeStore (buildConstructStore ts) c.prefixes args.outputFormat) := by
  refine ⟨?_, buildConstructStore_named ts, mem_buildConstructStore ts, ?_⟩
  · unfold queryToNewStoreOrSerialize
    simp only [hr, hts]
  · intro iw ew args c hc hq hrq
    unfold runMain mainDispatch queryToNewStoreOrSerialize
    simp only [hc, hq, hrq, hts]

theorem c6_construct_replaces_witness :
    rq6 exStore6 (setUnionDefaultGraph exQ) = .ok (.graph [Except.ok exT6])
    ∧ queryToNewStoreOrSerialize rq6 exStore6 exQ none =
        .ok (.newStore (buildConstructStore [exT6])) :=
  ⟨rfl, (c6_construct_replaces rq6 exStore6 exQ none [Except.ok exT6] [exT6]
    rfl rfl).1⟩

/-- C7 counterexample: with an empty default graph, an empty first named
graph and a non-empty second named graph (such stores arise from updates
like CREATE GRAPH), the flat dump is empty although a graph in the dataset
is non-empty — refuting the never-silently-empty clause. -/
theorem c7_counterexample :
    runMain exIW0 exEW7 exArgs7 = .ok (.datasetOut (.singleGraph .ntriples []))
    ∧ (ex7store.namedGraphs.any fun g => !g.2.isEmpty) = true := ⟨rfl, rfl⟩

/-- C7 (amended): for dataset-incapable output formats, the default graph is
dumped when non-empty, else exactly the first named graph in enumeration
order (the rest are ignored); the silent-empty-output guarantee holds only
provided every named graph in the dataset is non-empty. -/
theorem c7_flat_dump (st : Store) (fmt : RdfFormatT) (pfxs : List (String × String)) :
    (fmt.supportsDatasets = false →
      mkDump fmt pfxs st = .datasetOut (.singleGraph fmt (selectFlatDump st)))
  ∧ (st.defaultGraph ≠ [] → selectFlatDump st = st.defaultGraph)
  ∧ (∀ g ts rest, st.defaultGraph = [] → st.namedGraphs = (g, ts) :: rest →
      selectFlatDump st = ts)
  ∧ ((∀ p ∈ st.namedGraphs, p.2 ≠ []) →
      (st.defaultGraph ≠ [] ∨ st.namedGraphs ≠ []) → selectFlatDump st ≠ []) := by
  refine ⟨?_, ?_, ?_, ?_⟩
  · intro hf
    unfold mkDump
    rw [hf]
    rfl
  · intro hd
    cases hd2 : st.defaultGraph with
    | nil => exact absurd hd2 hd
    | cons a l =>
      unfold selectFlatDump
      rw [hd2]
      rfl
  · intro g ts rest hd hn
    unfold selectFlatDump
    rw [hd, hn]
    rfl
  · intro hall hsome
    cases hd : st.defaultGraph with
    | cons a l =>
      unfold selectFlatDump
      rw [hd]
      simp
    | nil =>
      rcases hsome with hds | hng
      · exact absurd hd hds
      · cases hn : st.namedGraphs with
        | nil => exact absurd hn hng
        | cons p rest =>
          unfold selectFlatDump
          rw [hd, hn]
          simpa using hall p (by rw [hn]; exact List.mem_cons_self p rest)

theorem c7_flat_dump_witness :
    exSt7.defaultGraph ≠ [] ∧ selectFlatDump exSt7 = exSt7.defaultGraph :=
  ⟨by decide, (c7_flat_dump exSt7 .ntriples []).2.1 (by decide)⟩

/-- C8: every successfully parsed query is executed with the default graph
set to the union of all named graphs: the query engine is consulted only at
queries whose union-default-graph switch is on, so replacing its behavior on
all other queries cannot change the run. -/
theorem c8_union_default :
    (∀ (rq rq2 : Store → QueryAst → Except String QueryResultsT)
       (store : Store) (q : QueryAst) (f : Option String),
       (∀ s qq, qq.unionDefaultGraph = true → rq s qq = rq2 s qq) →
       queryToNewStoreOrSerialize rq store q f = queryToNewStoreOrSerialize rq2 store q f)
  ∧ (∀ (iw : InputWorld) (ew : EngineWorld)
       (rq2 : Store → QueryAst → Except String QueryResultsT) (args : CliArgs),
       (∀ s qq, qq.unionDefaultGraph = true → ew.runQuery s qq = rq2 s qq) →
       runMain iw { ew with runQuery := rq2 } args = runMain iw ew args) := by
  have key : ∀ (rq rq2 : Store → QueryAst → Except String QueryResultsT)
      (store : Store) (q : QueryAst) (f : Option String),
      (∀ s qq, qq.unionDefaultGraph = true → rq s qq = rq2 s qq) →
      queryToNewStoreOrSerialize rq store q f = queryToNewStoreOrSerialize rq2 store q f := by
    intro rq rq2 store q f hagree
    unfold queryToNewStoreOrSerialize
    rw [hagree store (setUnionDefaultGraph q) rfl]
  refine ⟨key, ?_⟩
  intro iw ew rq2 args hagree
  unfold runMain
  cases hc : collectInput iw args with
  | error e => rfl
  | ok c =>
    simp only []
    unfold mainDispatch
    cases hq : ew.parseQuery c.queryStr c.baseIri with
    | error e => rfl
    | ok q =>
      simp only [hq]
      rw [key ew.runQuery rq2 c.store q args.outputFormat hagree]

theorem c8_union_default_witness :
    queryToNewStoreOrSerialize rqA emptyStore exQ none =
      queryToNewStoreOrSerialize rqB emptyStore exQ none :=
  c8_union_default.1 rqA rqB emptyStore exQ none (by
    intro s qq hq
    simp [rqA, rqB, hq])

/-- C9: loading one source is all-or-nothing — the quad stream is collected
in full before any bulk load, so an error anywhere in the stream (its
position given by `firstErr`) means the source contributes no quads and none
of its base IRI or prefix reports are merged: the loop state after skipping
it differs only by the recorded parser call and diagnostic. -/
theorem c9_source_atomicity :
    (∀ (items : List (Except String Quad)) (e : String),
       firstErr items = some e → collectQuads items = .error e)
  ∧ (∀ (store : Store) (rep : SourceReport) (base : Option String)
       (pfxs : List (String × String)) (e : String),
       firstErr rep.items = some e → loadData store rep base pfxs = .error e)
  ∧ (∀ (iw : InputWorld) (st : LoopState) (fpath ext2 : String) (fmt : RdfFormatT)
       (e : String),
       extension fpath = some ext2 → ext2 ≠ "rq" → fpath ≠ "-" →
       RdfFormatT.fromExtension ext2 = some fmt → iw.openFile fpath = .ok () →
       firstErr (iw.fileReport fpath (st.baseIri.getD (graphIri fpath))).items
         = some e →
       processFile iw st fpath = .ok (skipState st fpath e)
       ∧ (skipState st fpath e).store = st.store
       ∧ (skipState st fpath e).baseIri = st.baseIri
       ∧ (skipState st fpath e).prefixes = st.prefixes) := by
  refine ⟨?_, ?_, ?_⟩
  · intro items e h
    exact collectQuads_error_of_firstErr items e h
  · intro store rep base pfxs e h
    exact loadData_error_of_firstErr store rep base pfxs e h
  · intro iw st fpath ext2 fmt e hext hrq hdash hfmt hopen herr
    exact ⟨processFile_skips iw st fpath ext2 fmt e hext hrq hdash hfmt hopen herr,
      rfl, rfl, rfl⟩

theorem c9_source_atomicity_witness :
    firstErr [Except.error "bad", Except.ok (Quad.mk "s" "p" "o" none)] = some "bad"
    ∧ collectQuads [Except.error "bad", Except.ok (Quad.mk "s" "p" "o" none)]
        = .error "bad" :=
  ⟨rfl, c9_source_atomicity.1 [Except.error "bad", Except.ok (Quad.mk "s" "p" "o" none)]
    "bad" rfl⟩

/-- C10: when no inline query argument is given and no `.rq` file appears
among the file arguments, the dispatched text is exactly the empty string —
prefix lines are never prepended on their own — and the empty text flows
through the normal dispatch stage. -/
theorem c10_empty_query_text (iw : InputWorld) (args : CliArgs) (out : CollectOut)
    (h : collectInput iw args = .ok out)
    (hq : inlineQueryOf args = none)
    (hrq : ∀ f ∈ filesAfterFileQuery args, extension f ≠ some "rq") :
    out.queryStr = ""
    ∧ ∀ ew, runMain iw ew args = mainDispatch ew out args.outputFormat := by
  obtain ⟨st1, st2, h1, h2, h3⟩ := collectInput_ok_destruct iw args out h
  have hq1 : st1.queryFile = none := by
    rw [(collectFiles_ok_inv iw _ _ _ h1).2.2.2.1 hrq]
    rfl
  have hq2 : st2.queryFile = none := by
    rw [(stdinStep_ok_inv iw args _ _ h2).2.2.1]
    exact hq1
  constructor
  · exact (queryStep_ok_inv iw args _ _ h3).2.2.2.2.1 hq2 hq
  · intro ew
    unfold runMain
    rw [h]

theorem c10_empty_query_text_witness :
    inlineQueryOf exArgs0 = none ∧ exC0.queryStr = "" :=
  ⟨rfl, (c10_empty_query_text exIW0 exArgs0 exC0 rfl rfl
    (fun f hf => absurd hf (List.not_mem_nil f))).1⟩

end Oxrq
